import Mathlib

/-!
Verification of the DNS-upload collaborator and of the spec-level scoring and
Beta-arm components of the montecarlo-ip-searcher repository.

The Go package `internal/dns` is embedded shallowly: the observable behaviour
of the network (the outcome of each REST call the code makes) is an oracle
passed to every operation, and each operation returns the list of requests it
issued together with the `error` value it returns in Go (`Option String`,
`none` meaning `nil`).
-/

/-- Model of `netip.Addr` restricted to the valid addresses the program works
with: a parsed address is either a 4-byte IPv4 address (`Is4() = true`) or a
16-byte IPv6 address (`Is6() = true`); `text` is the value of `String()`. -/
inductive Addr where
  | v4 (text : String)
  | v6 (text : String)
deriving DecidableEq

/-- Go `netip.Addr.Is4`. -/
def Addr.is4 : Addr → Bool
  | .v4 _ => true
  | .v6 _ => false

/-- Go `netip.Addr.Is6`. -/
def Addr.is6 : Addr → Bool
  | .v4 _ => false
  | .v6 _ => true

/-- Go `netip.Addr.String`. -/
def Addr.str : Addr → String
  | .v4 s => s
  | .v6 s => s

/-- One invocation of a method of the `Provider` interface, as performed by
`Upload` (`internal/dns`, `Upload`). -/
inductive DNSCall where
  | deleteRecords (subdomain : String) (ipv6 : Bool)
  | createRecords (subdomain : String) (ips : List Addr)
deriving DecidableEq

/-- Observable behaviour of a value of the Go `Provider` interface: the error
each method call returns (`none` = success).  Deterministic per argument,
which suffices because `Upload` calls each method at most once per family. -/
structure ProviderBehavior where
  DeleteRecords : String → Bool → Option String
  CreateRecords : String → List Addr → Option String

/-- The result of a provider method call, looked up in the behaviour. -/
def ProviderBehavior.callResult (prov : ProviderBehavior) : DNSCall → Option String
  | .deleteRecords s b => prov.DeleteRecords s b
  | .createRecords s l => prov.CreateRecords s l

/-- Embedding of `Upload` (`internal/dns`): partition the addresses by family
(`Is4` vs not), then for each non-empty family delete existing records and, on
success, create the new ones; the first failing call aborts with a wrapped
error.  Returns the trace of provider calls made and the returned error. -/
def Upload (prov : ProviderBehavior) (subdomain : String) (ips : List Addr) :
    List DNSCall × Option String :=
  if ips.isEmpty then ([], none)
  else
    let v4 := ips.filter (fun ip => ip.is4)
    let v6 := ips.filter (fun ip => !ip.is4)
    let step1 : List DNSCall × Option String :=
      if v4.isEmpty then ([], none)
      else
        match prov.DeleteRecords subdomain false with
        | some e => ([DNSCall.deleteRecords subdomain false],
            some (("delete A records: ") ++ e))
        | none =>
          match prov.CreateRecords subdomain v4 with
          | some e => ([DNSCall.deleteRecords subdomain false,
              DNSCall.createRecords subdomain v4],
              some (("create A records: ") ++ e))
          | none => ([DNSCall.deleteRecords subdomain false,
              DNSCall.createRecords subdomain v4], none)
    match step1 with
    | (t4, some e) => (t4, some e)
    | (t4, none) =>
      if v6.isEmpty then (t4, none)
      else
        match prov.DeleteRecords subdomain true with
        | some e => (t4 ++ [DNSCall.deleteRecords subdomain true],
            some (("delete AAAA records: ") ++ e))
        | none =>
          match prov.CreateRecords subdomain v6 with
          | some e => (t4 ++ [DNSCall.deleteRecords subdomain true,
              DNSCall.createRecords subdomain v6],
              some (("create AAAA records: ") ++ e))
          | none => (t4 ++ [DNSCall.deleteRecords subdomain true,
              DNSCall.createRecords subdomain v6], none)

/-- The IPv4 partition `v4` computed by `Upload`. -/
def v4part (ips : List Addr) : List Addr := ips.filter (fun ip => ip.is4)

/-- The IPv6 partition `v6` computed by `Upload` (every address that is not
`Is4`). -/
def v6part (ips : List Addr) : List Addr := ips.filter (fun ip => !ip.is4)

/-- A record-creation HTTP request as issued by `createRecord` of either
provider: the DNS name, the record type field and the record value/content
field of the JSON payload. -/
structure CreateReq where
  name : String
  rtype : String
  value : String
deriving DecidableEq

/-- Go `vercelDNSRecord`, the fields the code reads. -/
structure VercelRecord where
  id : String
  rtype : String
  name : String
  value : String
deriving DecidableEq

/-- Observable behaviour of the Vercel REST API as seen by `VercelProvider`
(`internal/dns/vercel.go`): the outcome of the single-page record listing,
and of each deletion (by record id) and creation (by name, type, value).
An `Except.error` / `some` value is the error string the Go helper returns,
covering HTTP status >= 400 and body-parse failures alike. -/
structure VercelProvider where
  listResult : Except String (List VercelRecord)
  deleteResult : String → Option String
  createResult : String → String → String → Option String

/-- Embedding of the loop body of `VercelProvider.DeleteRecords`: walk the
listed records, and for each one whose type and name match, issue a deletion
request; the first failing deletion aborts with a wrapped error.  Returns the
ids for which a deletion request was issued, and the error. -/
def VercelProvider.deleteLoop (p : VercelProvider) (recordType subdomain : String) :
    List VercelRecord → List String × Option String
  | [] => ([], none)
  | r :: rest =>
    if r.rtype = recordType ∧ r.name = subdomain then
      match p.deleteResult r.id with
      | some e => ([r.id], some (("delete record ") ++ r.id ++ (": ") ++ e))
      | none =>
        let res := p.deleteLoop recordType subdomain rest
        (r.id :: res.1, res.2)
    else p.deleteLoop recordType subdomain rest

/-- Embedding of `VercelProvider.DeleteRecords`: list all records of the
domain, then delete those whose type is A (or AAAA when `ipv6`) and whose
name equals the subdomain. -/
def VercelProvider.DeleteRecords (p : VercelProvider) (subdomain : String) (ipv6 : Bool) :
    List String × Option String :=
  let recordType := if ipv6 then ("AAAA") else ("A")
  match p.listResult with
  | .error e => ([], some e)
  | .ok records => p.deleteLoop recordType subdomain records

/-- Embedding of `VercelProvider.CreateRecords`: for each address in order,
issue one creation request with type AAAA when `Is6` and A otherwise and with
the address string as value; the first failing creation aborts with a wrapped
error. -/
def VercelProvider.CreateRecords (p : VercelProvider) (subdomain : String) :
    List Addr → List CreateReq × Option String
  | [] => ([], none)
  | ip :: rest =>
    let recordType := if ip.is6 then ("AAAA") else ("A")
    match p.createResult subdomain recordType ip.str with
    | some e => ([⟨subdomain, recordType, ip.str⟩],
        some (("create record for ") ++ ip.str ++ (": ") ++ e))
    | none =>
      let res := p.CreateRecords subdomain rest
      (⟨subdomain, recordType, ip.str⟩ :: res.1, res.2)

/-- Go `cfDNSRecord`, the field the deletion code reads. -/
structure CFRecord where
  id : String
deriving DecidableEq

/-- Mutable state of a `CloudflareProvider` value: the cached zone name
(empty string when not yet cached, exactly as the zero value in Go). -/
structure CFState where
  zoneName : String
deriving DecidableEq

/-- Observable behaviour of the Cloudflare REST API as seen by
`CloudflareProvider` (`internal/dns/cloudflare.go`): the outcome of the zone
fetch performed by `getZoneName` (the zone name on success), of the filtered
record listing (by name and record type), and of each deletion and creation.
Errors cover transport failures, body-parse failures and `success=false`
responses alike. -/
structure CloudflareProvider where
  zoneFetch : Except String String
  listResult : String → String → Except String (List CFRecord)
  deleteResult : String → Option String
  createResult : String → String → String → Option String

/-- Embedding of `CloudflareProvider.getZoneName`: return the cached zone
name when present, otherwise issue the zone-fetch request and cache its
result.  The middle component counts the network requests issued (0 or 1). -/
def CloudflareProvider.getZoneName (p : CloudflareProvider) (st : CFState) :
    CFState × Nat × Except String String :=
  if st.zoneName ≠ ("") then (st, 0, .ok st.zoneName)
  else
    match p.zoneFetch with
    | .error e => (st, 1, .error e)
    | .ok name => (⟨name⟩, 1, .ok name)

/-- Embedding of `CloudflareProvider.buildFQDN`: resolve the zone name, then
map the empty subdomain and the at sign to the zone apex and any other
subdomain to `subdomain + "." + zoneName`. -/
def CloudflareProvider.buildFQDN (p : CloudflareProvider) (st : CFState) (subdomain : String) :
    CFState × Nat × Except String String :=
  match p.getZoneName st with
  | (st2, n, .error e) => (st2, n, .error (("get zone name: ") ++ e))
  | (st2, n, .ok zoneName) =>
    if subdomain = ("") ∨ subdomain = ("@") then (st2, n, .ok zoneName)
    else (st2, n, .ok (subdomain ++ (".") ++ zoneName))

/-- Embedding of the loop body of `CloudflareProvider.DeleteRecords`: delete
every listed record (the listing was already filtered server-side by name and
type); the first failing deletion aborts with a wrapped error. -/
def CloudflareProvider.deleteLoop (p : CloudflareProvider) :
    List CFRecord → List String × Option String
  | [] => ([], none)
  | r :: rest =>
    match p.deleteResult r.id with
    | some e => ([r.id], some (("delete record ") ++ r.id ++ (": ") ++ e))
    | none =>
      let res := p.deleteLoop rest
      (r.id :: res.1, res.2)

/-- Embedding of `CloudflareProvider.DeleteRecords`: build the FQDN, list the
records of the matching type for that name, and delete each of them. -/
def CloudflareProvider.DeleteRecords (p : CloudflareProvider) (st : CFState)
    (subdomain : String) (ipv6 : Bool) : CFState × List String × Option String :=
  let recordType := if ipv6 then ("AAAA") else ("A")
  match p.buildFQDN st subdomain with
  | (st2, _, .error e) => (st2, [], some e)
  | (st2, _, .ok fqdn) =>
    match p.listResult fqdn recordType with
    | .error e => (st2, [], some e)
    | .ok records =>
      let res := p.deleteLoop records
      (st2, res.1, res.2)

/-- Embedding of the loop body of `CloudflareProvider.CreateRecords`: one
creation request per address in order, type AAAA when `Is6` and A otherwise,
content the address string; the first failure aborts with a wrapped error. -/
def CloudflareProvider.createLoop (p : CloudflareProvider) (fqdn : String) :
    List Addr → List CreateReq × Option String
  | [] => ([], none)
  | ip :: rest =>
    let recordType := if ip.is6 then ("AAAA") else ("A")
    match p.createResult fqdn recordType ip.str with
    | some e => ([⟨fqdn, recordType, ip.str⟩],
        some (("create record for ") ++ ip.str ++ (": ") ++ e))
    | none =>
      let res := p.createLoop fqdn rest
      (⟨fqdn, recordType, ip.str⟩ :: res.1, res.2)

/-- Embedding of `CloudflareProvider.CreateRecords`: build the FQDN, then
create one record per address. -/
def CloudflareProvider.CreateRecords (p : CloudflareProvider) (st : CFState)
    (subdomain : String) (ips : List Addr) : CFState × List CreateReq × Option String :=
  match p.buildFQDN st subdomain with
  | (st2, _, .error e) => (st2, [], some e)
  | (st2, _, .ok fqdn) =>
    let res := p.createLoop fqdn ips
    (st2, res.1, res.2)

/-- Go `Config` (`internal/dns`), the fields `NewProvider` reads. -/
structure Config where
  provider : String
  token : String
  zone : String
  teamID : String
deriving DecidableEq

/-- The value `NewProvider` returns on success: which concrete provider was
constructed and with which credentials. -/
inductive ProviderHandle where
  | cloudflare (token zoneID : String)
  | vercel (token domain teamID : String)
deriving DecidableEq

/-- Embedding of `NewProvider` (`internal/dns`): dispatch on the provider
name, fall back to environment variables for missing credentials, and fail
when a required credential is still empty.  The environment is the function
`env` (Go `os.Getenv`). -/
def NewProvider (cfg : Config) (env : String → String) : Except String ProviderHandle :=
  if cfg.provider = ("cloudflare") then
    let token := if cfg.token = ("") then env ("CF_API_TOKEN") else cfg.token
    let zone := if cfg.zone = ("") then env ("CF_ZONE_ID") else cfg.zone
    if token = ("") then
      .error ("cloudflare: API token required (--dns-token or CF_API_TOKEN)")
    else if zone = ("") then
      .error ("cloudflare: zone ID required (--dns-zone or CF_ZONE_ID)")
    else .ok (.cloudflare token zone)
  else if cfg.provider = ("vercel") then
    let token := if cfg.token = ("") then env ("VERCEL_TOKEN") else cfg.token
    let teamID := if cfg.teamID = ("") then env ("VERCEL_TEAM_ID") else cfg.teamID
    let domain := cfg.zone
    if token = ("") then
      .error ("vercel: API token required (--dns-token or VERCEL_TOKEN)")
    else if domain = ("") then
      .error ("vercel: domain required (--dns-zone)")
    else .ok (.vercel token domain teamID)
  else .error (("unknown DNS provider: ") ++ cfg.provider ++ (" (supported: cloudflare, vercel)"))

/-- Modelled from the spec: the probe harness and its `ProbeOutcome` record
(spec section 3) are part of the core, whose source is not in the repository
snapshot; fields as listed there, with millisecond latencies as rationals. -/
structure ProbeOutcome where
  ok : Bool
  httpStatus : Nat
  connectMs : ℚ
  tlsMs : ℚ
  ttfbMs : ℚ
  totalMs : ℚ
  traceColo : Option String
deriving DecidableEq

/-- Clamp a rational to the interval from `lo` to `hi`. -/
def clampQ (lo hi x : ℚ) : ℚ := max lo (min hi x)

/-- Modelled from the spec: lower clamp bound `t_lo` of the scoring component
(spec section 4.3), whose source is not in the repository snapshot. -/
def tLo : ℚ := 20

/-- Modelled from the spec: upper clamp bound `t_hi` of the scoring component
(spec section 4.3). -/
def tHi : ℚ := 2000

/-- Modelled from the spec: the scoring function of spec section 4.3, whose
source is not in the repository snapshot.  On failure the reward is 0;
otherwise `total_ms` is clamped to the interval from `t_lo` to `t_hi`, the
reward is `(t_hi - t) / (t_hi - t_lo)`, and the reward is clamped to the unit
interval. -/
def reward (o : ProbeOutcome) : ℚ :=
  if o.ok then clampQ 0 1 ((tHi - clampQ tLo tHi o.totalMs) / (tHi - tLo))
  else 0

/-- Modelled from the spec: an arm of the search engine (spec sections 3 and
4.4), whose source is not in the repository snapshot.  Beta parameters, visit
count, reward and latency sums and the birth sequence number are the spec's
attributes; `inherited` and `inheritedB` are ghost fields recording the
scaled prior mass the arm received at creation by a split (zero for root
seeds), used only to state the bookkeeping invariant. -/
structure Arm where
  alpha : ℚ
  beta : ℚ
  n : Nat
  sumReward : ℚ
  sumLatency : ℚ
  birth : Nat
  inherited : ℚ
  inheritedB : ℚ
deriving DecidableEq

/-- Modelled from the spec: a root-seed arm with the Beta(1,1) prior. -/
def Arm.seed (birth : Nat) : Arm := ⟨1, 1, 0, 0, 0, birth, 0, 0⟩

/-- Modelled from the spec: the Beta update of section 4.4 after observing
reward `r` and latency `lat` for the arm. -/
def Arm.update (a : Arm) (r lat : ℚ) : Arm :=
  { a with
    alpha := a.alpha + r
    beta := a.beta + (1 - r)
    n := a.n + 1
    sumReward := a.sumReward + r
    sumLatency := a.sumLatency + lat }

/-- Modelled from the spec: the prior-scaling factor kappa of section 4.5. -/
def kappa : ℚ := 1 / 2

/-- Modelled from the spec: one child produced when an arm splits (spec
section 4.5 step 4c): `alpha_c = 1 + kappa * (alpha_parent - 1) / fanout` and
symmetrically for beta, fresh statistics, a fresh birth number. -/
def Arm.child (a : Arm) (fanout : Nat) (birth : Nat) : Arm :=
  ⟨1 + kappa * (a.alpha - 1) / (fanout : ℚ),
   1 + kappa * (a.beta - 1) / (fanout : ℚ),
   0, 0, 0, birth,
   kappa * (a.alpha - 1) / (fanout : ℚ),
   kappa * (a.beta - 1) / (fanout : ℚ)⟩

/-- Modelled from the spec: the full list of children created when an arm
splits, with consecutive fresh birth numbers. -/
def Arm.splitChildren (a : Arm) (fanout : Nat) (birthStart : Nat) : List Arm :=
  (List.range fanout).map (fun i => a.child fanout (birthStart + i))

/-- Modelled from the spec: the posterior mean of section 4.4, which is also
the `thompson_expectation` used for eviction. -/
def Arm.mean (a : Arm) : ℚ := a.alpha / (a.alpha + a.beta)

/-- Modelled from the spec: the eviction order of section 4.5 step 4c,
smallest posterior mean first with the oldest birth breaking ties. -/
def worseArm (a b : Arm) : Bool :=
  decide (a.mean < b.mean) || (decide (a.mean = b.mean) && decide (a.birth < b.birth))

/-- Modelled from the spec: select the arm to evict, the one minimal in the
eviction order. -/
def pickWorst : List Arm → Option Arm
  | [] => none
  | a :: rest => some (rest.foldl (fun w x => if worseArm x w then x else w) a)

/-- Modelled from the spec: remove the arm selected for eviction. -/
def evictOnce (l : List Arm) : List Arm :=
  match pickWorst l with
  | none => l
  | some w => l.erase w

/-- Fuel-indexed helper for `evict`. -/
def evictTo (cap : Nat) : Nat → List Arm → List Arm
  | 0, l => l
  | fuel + 1, l => if l.length ≤ cap then l else evictTo cap fuel (evictOnce l)

/-- Modelled from the spec: beam-overflow eviction of section 4.5 step 4c,
removing worst arms until the beam size is within capacity. -/
def evict (l : List Arm) (cap : Nat) : List Arm := evictTo cap l.length l

/-- The per-arm bookkeeping invariant exactly as the claim states it: alpha
is one plus the arm's own observed reward sum, beta is one plus the arm's own
observed sum of one minus reward. -/
def armClaimInv (a : Arm) : Prop :=
  a.alpha = 1 + a.sumReward ∧ a.beta = 1 + ((a.n : ℚ) - a.sumReward)

/-- The amended per-arm invariant: the Beta parameters additionally carry the
nonnegative prior mass inherited at a split, and the observed reward sum lies
between 0 and the visit count. -/
def armInv (a : Arm) : Prop :=
  a.alpha = 1 + a.inherited + a.sumReward ∧
  a.beta = 1 + a.inheritedB + ((a.n : ℚ) - a.sumReward) ∧
  0 ≤ a.inherited ∧ 0 ≤ a.inheritedB ∧
  0 ≤ a.sumReward ∧ a.sumReward ≤ (a.n : ℚ)

/-- Claim-side description of the record type and value for an address: type
A for an IPv4 address and AAAA otherwise, value the address string.  Stated
from the claim's words, to be compared with the code's assignment. -/
def addrTypeVal (ip : Addr) : String × String :=
  ((if ip.is4 then ("A") else ("AAAA")), ip.str)

/-- The record type and value carried by a creation request. -/
def CreateReq.typeVal (r : CreateReq) : String × String := (r.rtype, r.value)

/-- Claim-side condition for `NewProvider` to succeed, stated from the
claim's words: the provider name is cloudflare or vercel and every required
credential is non-empty after environment-variable fallback. -/
def requiredCredentialsOK (cfg : Config) (env : String → String) : Bool :=
  (decide (cfg.provider = ("cloudflare")) &&
    (!decide (cfg.token = ("")) || !decide (env ("CF_API_TOKEN") = (""))) &&
    (!decide (cfg.zone = ("")) || !decide (env ("CF_ZONE_ID") = ("")))) ||
  (decide (cfg.provider = ("vercel")) &&
    (!decide (cfg.token = ("")) || !decide (env ("VERCEL_TOKEN") = (""))) &&
    !decide (cfg.zone = ("")))

/-- On success the constructed provider is of the requested kind; errors are
unconstrained. -/
def handleMatches (cfg : Config) : Except String ProviderHandle → Bool
  | .ok (.cloudflare _ _) => decide (cfg.provider = ("cloudflare"))
  | .ok (.vercel _ _ _) => decide (cfg.provider = ("vercel"))
  | .error _ => true

/-- A provider behaviour whose A-family deletion fails. -/
def provDelFail : ProviderBehavior :=
  ⟨fun _ ipv6 => if ipv6 then none else some ("boom"), fun _ _ => none⟩

/-- A provider behaviour for which every call succeeds. -/
def provAllOK : ProviderBehavior := ⟨fun _ _ => none, fun _ _ => none⟩

/-- A mixed-family concrete address list. -/
def ipsMixed : List Addr := [Addr.v4 ("1.2.3.4"), Addr.v6 ("2606:4700::1")]

/-- A Vercel API behaviour for which every call succeeds and the domain has
no records. -/
def vpOK : VercelProvider := ⟨.ok [], fun _ => none, fun _ _ _ => none⟩

/-- A Vercel API behaviour with three existing records, all calls succeed. -/
def vpRecs : VercelProvider :=
  ⟨.ok [⟨("r1"), ("A"), ("cf"), ("1.1.1.1")⟩,
        ⟨("r2"), ("AAAA"), ("cf"), ("::2")⟩,
        ⟨("r3"), ("A"), ("www"), ("2.2.2.2")⟩],
   fun _ => none, fun _ _ _ => none⟩

/-- A Cloudflare API behaviour for which every call succeeds. -/
def cpOK : CloudflareProvider :=
  ⟨.ok ("example.com"), fun _ _ => .ok [⟨("cf1")⟩, ⟨("cf2")⟩],
   fun _ => none, fun _ _ _ => none⟩

/-- A Cloudflare API behaviour whose zone fetch succeeds with an empty zone
name. -/
def cpEmptyZone : CloudflareProvider :=
  ⟨.ok (""), fun _ _ => .ok [], fun _ => none, fun _ _ _ => none⟩

/-- C8: on the empty address list `Upload` returns nil immediately and makes
no provider call at all. -/
theorem Upload_empty_list (prov : ProviderBehavior) (subdomain : String) :
    Upload prov subdomain [] = ([], none) := rfl

/-- C6: the scoring function returns 0 when the probe failed, and otherwise
the reward is the clamped total latency mapped affinely onto the unit
interval; in every case the reward lies between 0 and 1. -/
theorem reward_spec (o : ProbeOutcome) :
    (o.ok = false → reward o = 0) ∧
    (o.ok = true → reward o = (2000 - clampQ 20 2000 o.totalMs) / 1980) ∧
    0 ≤ reward o ∧ reward o ≤ 1 := by
  have h1 : tLo ≤ clampQ tLo tHi o.totalMs := le_max_left _ _
  have h2 : clampQ tLo tHi o.totalMs ≤ tHi := by
    refine max_le ?_ (min_le_left _ _)
    norm_num [tLo, tHi]
  have hx0 : 0 ≤ (tHi - clampQ tLo tHi o.totalMs) / (tHi - tLo) := by
    apply div_nonneg
    · linarith
    · norm_num [tLo, tHi]
  have hx1 : (tHi - clampQ tLo tHi o.totalMs) / (tHi - tLo) ≤ 1 := by
    rw [div_le_one (by norm_num [tLo, tHi])]
    simp only [tLo, tHi] at h1 ⊢
    linarith
  have hclamp : clampQ 0 1 ((tHi - clampQ tLo tHi o.totalMs) / (tHi - tLo)) =
      (tHi - clampQ tLo tHi o.totalMs) / (tHi - tLo) := by
    rw [clampQ, min_eq_right hx1, max_eq_right hx0]
  refine ⟨?_, ?_, ?_, ?_⟩
  · intro h
    simp [reward, h]
  · intro h
    simp only [reward, h, if_true, hclamp]
    norm_num [tLo, tHi]
  · cases h : o.ok
    · simp [reward, h]
    · simp only [reward, h, if_true, hclamp]
      exact hx0
  · cases h : o.ok
    · simp [reward, h]
    · simp only [reward, h, if_true, hclamp]
      exact hx1

/-- Witness for the scoring theorem at a concrete successful outcome. -/
theorem reward_spec_witness :
    reward ⟨true, 200, 5, 5, 5, 100, none⟩ =
      (2000 - clampQ 20 2000 (100 : ℚ)) / 1980 ∧
    0 ≤ reward ⟨true, 200, 5, 5, 5, 100, none⟩ ∧
    reward ⟨true, 200, 5, 5, 5, 100, none⟩ ≤ 1 :=
  ⟨(reward_spec ⟨true, 200, 5, 5, 5, 100, none⟩).2.1 rfl,
   (reward_spec ⟨true, 200, 5, 5, 5, 100, none⟩).2.2.1,
   (reward_spec ⟨true, 200, 5, 5, 5, 100, none⟩).2.2.2⟩

/-- C7 counterexample: the bookkeeping invariant exactly as claimed (alpha is
one plus the arm's own observed reward sum) holds for a parent arm after one
ingestion of reward 1, yet fails for the children the split rule produces,
whose alpha is 1.25 while their own observed reward sum is 0. -/
theorem beta_arm_claim_cex :
    armClaimInv ((Arm.seed 0).update 1 0) ∧
    (((Arm.seed 0).update 1 0).child 2 1) ∈ ((Arm.seed 0).update 1 0).splitChildren 2 1 ∧
    ¬ armClaimInv (((Arm.seed 0).update 1 0).child 2 1) := by
  unfold armClaimInv
  refine ⟨⟨?_, ?_⟩, ?_, ?_⟩
  · norm_num [Arm.seed, Arm.update]
  · norm_num [Arm.seed, Arm.update]
  · simp only [Arm.splitChildren, List.mem_map, List.mem_range]
    exact ⟨0, by norm_num, rfl⟩
  · rintro ⟨ha, hb⟩
    norm_num [Arm.seed, Arm.update, Arm.child, kappa] at ha

/-- C7 (amended): every arm produced by the spec's operations satisfies alpha
at least 1 and beta at least 1, and alpha equals 1 plus the inherited prior
mass plus the arm's observed reward sum (symmetrically for beta); this
invariant holds for root seeds, is preserved by Beta updates with rewards in
the unit interval and by splitting, and eviction only removes arms. -/
theorem beta_arm_invariant :
    (∀ a : Arm, armInv a → 1 ≤ a.alpha ∧ 1 ≤ a.beta) ∧
    (∀ b : Nat, armInv (Arm.seed b)) ∧
    (∀ (a : Arm) (r lat : ℚ), 0 ≤ r → r ≤ 1 → armInv a → armInv (a.update r lat)) ∧
    (∀ (a : Arm) (fanout birthStart : Nat), armInv a →
      ∀ c ∈ a.splitChildren fanout birthStart, armInv c) ∧
    (∀ (l : List Arm) (cap : Nat) (c : Arm), c ∈ evict l cap → c ∈ l) := by
  have evictOnceMem : ∀ (l : List Arm) (c : Arm), c ∈ evictOnce l → c ∈ l := by
    intro l c hc
    unfold evictOnce at hc
    cases hp : pickWorst l with
    | none => rwa [hp] at hc
    | some w =>
      rw [hp] at hc
      exact List.mem_of_mem_erase hc
  refine ⟨?_, ?_, ?_, ?_, ?_⟩
  · rintro a ⟨h1, h2, h3, h4, h5, h6⟩
    constructor
    · rw [h1]; linarith
    · rw [h2]; linarith
  · intro b
    refine ⟨by norm_num [Arm.seed], by norm_num [Arm.seed], ?_, ?_, ?_, ?_⟩ <;>
      norm_num [Arm.seed]
  · rintro a r lat hr0 hr1 ⟨h1, h2, h3, h4, h5, h6⟩
    refine ⟨?_, ?_, h3, h4, ?_, ?_⟩
    · show a.alpha + r = 1 + a.inherited + (a.sumReward + r)
      rw [h1]; ring
    · show a.beta + (1 - r) = 1 + a.inheritedB + (((a.n + 1 : Nat) : ℚ) - (a.sumReward + r))
      rw [h2]; push_cast; ring
    · show 0 ≤ a.sumReward + r
      linarith
    · show a.sumReward + r ≤ ((a.n + 1 : Nat) : ℚ)
      push_cast; linarith
  · rintro a fanout birthStart ⟨h1, h2, h3, h4, h5, h6⟩ c hc
    have halpha : 1 ≤ a.alpha := by rw [h1]; linarith
    have hbeta : 1 ≤ a.beta := by rw [h2]; linarith
    simp only [Arm.splitChildren, List.mem_map, List.mem_range] at hc
    obtain ⟨i, _, rfl⟩ := hc
    refine ⟨?_, ?_, ?_, ?_, ?_, ?_⟩
    · show 1 + kappa * (a.alpha - 1) / (fanout : ℚ) =
        1 + kappa * (a.alpha - 1) / (fanout : ℚ) + 0
      ring
    · show 1 + kappa * (a.beta - 1) / (fanout : ℚ) =
        1 + kappa * (a.beta - 1) / (fanout : ℚ) + (((0 : Nat) : ℚ) - 0)
      push_cast; ring
    · exact div_nonneg (mul_nonneg (by norm_num [kappa]) (by linarith)) (Nat.cast_nonneg _)
    · exact div_nonneg (mul_nonneg (by norm_num [kappa]) (by linarith)) (Nat.cast_nonneg _)
    · show (0 : ℚ) ≤ 0
      exact le_refl 0
    · show (0 : ℚ) ≤ (((0 : Nat)) : ℚ)
      norm_num
  · intro l cap c hc
    unfold evict at hc
    generalize hfuel : l.length = fuel at hc
    clear hfuel
    induction fuel generalizing l with
    | zero => exact hc
    | succ f ih =>
      rw [evictTo] at hc
      by_cases h : l.length ≤ cap
      · rwa [if_pos h] at hc
      · rw [if_neg h] at hc
        exact evictOnceMem _ _ (ih _ hc)

/-- Witness for the amended Beta-arm invariant: the invariant holds for a
seeded arm after one update with reward one half. -/
theorem beta_arm_invariant_witness :
    armInv ((Arm.seed 0).update (1 / 2) 100) :=
  beta_arm_invariant.2.2.1 (Arm.seed 0) (1 / 2) 100 (by norm_num) (by norm_num)
    (beta_arm_invariant.2.1 0)

/-- C10: `NewProvider` succeeds exactly when the provider name is cloudflare
or vercel and every required credential is non-empty after the
environment-variable fallback, and on success the constructed provider is of
the requested kind. -/
theorem NewProvider_ok_iff (cfg : Config) (env : String → String) :
    (NewProvider cfg env).isOk = requiredCredentialsOK cfg env ∧
    handleMatches cfg (NewProvider cfg env) = true := by
  by_cases hp : cfg.provider = ("cloudflare")
  · by_cases ht : cfg.token = ("")
    · by_cases hte : env ("CF_API_TOKEN") = ("")
      · simp [NewProvider, requiredCredentialsOK, handleMatches, Except.isOk, Except.toBool, hp, ht, hte]
      · by_cases hz : cfg.zone = ("")
        · by_cases hze : env ("CF_ZONE_ID") = ("")
          · simp [NewProvider, requiredCredentialsOK, handleMatches, Except.isOk, Except.toBool, hp, ht, hte, hz, hze]
          · simp [NewProvider, requiredCredentialsOK, handleMatches, Except.isOk, Except.toBool, hp, ht, hte, hz, hze]
        · simp [NewProvider, requiredCredentialsOK, handleMatches, Except.isOk, Except.toBool, hp, ht, hte, hz]
    · by_cases hz : cfg.zone = ("")
      · by_cases hze : env ("CF_ZONE_ID") = ("")
        · simp [NewProvider, requiredCredentialsOK, handleMatches, Except.isOk, Except.toBool, hp, ht, hz, hze]
        · simp [NewProvider, requiredCredentialsOK, handleMatches, Except.isOk, Except.toBool, hp, ht, hz, hze]
      · simp [NewProvider, requiredCredentialsOK, handleMatches, Except.isOk, Except.toBool, hp, ht, hz]
  · by_cases hq : cfg.provider = ("vercel")
    · by_cases ht : cfg.token = ("")
      · by_cases hte : env ("VERCEL_TOKEN") = ("")
        · simp [NewProvider, requiredCredentialsOK, handleMatches, Except.isOk, Except.toBool, hp, hq, ht, hte]
        · by_cases hz : cfg.zone = ("")
          · simp [NewProvider, requiredCredentialsOK, handleMatches, Except.isOk, Except.toBool, hp, hq, ht, hte, hz]
          · simp [NewProvider, requiredCredentialsOK, handleMatches, Except.isOk, Except.toBool, hp, hq, ht, hte, hz]
      · by_cases hz : cfg.zone = ("")
        · simp [NewProvider, requiredCredentialsOK, handleMatches, Except.isOk, Except.toBool, hp, hq, ht, hz]
        · simp [NewProvider, requiredCredentialsOK, handleMatches, Except.isOk, Except.toBool, hp, hq, ht, hz]
    · simp [NewProvider, requiredCredentialsOK, handleMatches, Except.isOk, Except.toBool, hp, hq]

/-- When the Vercel creation loop returns without error it has issued exactly
the canonical request for each address, in order. -/
lemma vercel_CreateRecords_ok (p : VercelProvider) (subdomain : String) :
    ∀ ips : List Addr, (p.CreateRecords subdomain ips).2 = none →
      (p.CreateRecords subdomain ips).1 =
        ips.map (fun ip =>
          ⟨subdomain, (if ip.is6 then ("AAAA") else ("A")), ip.str⟩) := by
  intro ips
  induction ips with
  | nil => intro _; rfl
  | cons ip rest ih =>
    intro h
    cases hc : p.createResult subdomain (if ip.is6 then ("AAAA") else ("A")) ip.str with
    | some e =>
      simp [VercelProvider.CreateRecords, hc] at h
    | none =>
      simp only [VercelProvider.CreateRecords, hc] at h ⊢
      simp only [List.map_cons, List.cons.injEq, true_and]
      exact ih h

/-- When the Cloudflare creation loop returns without error it has issued
exactly the canonical request for each address, in order. -/
lemma cf_createLoop_ok (p : CloudflareProvider) (fqdn : String) :
    ∀ ips : List Addr, (p.createLoop fqdn ips).2 = none →
      (p.createLoop fqdn ips).1 =
        ips.map (fun ip =>
          ⟨fqdn, (if ip.is6 then ("AAAA") else ("A")), ip.str⟩) := by
  intro ips
  induction ips with
  | nil => intro _; rfl
  | cons ip rest ih =>
    intro h
    cases hc : p.createResult fqdn (if ip.is6 then ("AAAA") else ("A")) ip.str with
    | some e =>
      simp [CloudflareProvider.createLoop, hc] at h
    | none =>
      simp only [CloudflareProvider.createLoop, hc] at h ⊢
      simp only [List.map_cons, List.cons.injEq, true_and]
      exact ih h

/-- The record type and value the code assigns agree with the claim's
assignment: A exactly for IPv4, value the address string. -/
lemma typeVal_code_eq_claim (name : String) (ip : Addr) :
    CreateReq.typeVal ⟨name, (if ip.is6 then ("AAAA") else ("A")), ip.str⟩ =
      addrTypeVal ip := by
  cases ip <;> rfl

/-- C2: each provider's CreateRecords, when it returns without error, issues
exactly one record-creation request per address, in the order of the input
list, with the address string as value and type A for an IPv4 address and
AAAA otherwise. -/
theorem CreateRecords_one_request_per_address
    (vp : VercelProvider) (cp : CloudflareProvider) (st : CFState)
    (subdomain : String) (ips : List Addr) :
    ((vp.CreateRecords subdomain ips).2 = none →
      (vp.CreateRecords subdomain ips).1.map CreateReq.typeVal = ips.map addrTypeVal ∧
      (vp.CreateRecords subdomain ips).1.length = ips.length) ∧
    ((cp.CreateRecords st subdomain ips).2.2 = none →
      (cp.CreateRecords st subdomain ips).2.1.map CreateReq.typeVal = ips.map addrTypeVal ∧
      (cp.CreateRecords st subdomain ips).2.1.length = ips.length) := by
  constructor
  · intro h
    rw [vercel_CreateRecords_ok vp subdomain ips h]
    constructor
    · rw [List.map_map]
      exact List.map_congr_left (fun ip _ => typeVal_code_eq_claim subdomain ip)
    · simp
  · intro h
    rcases hb : cp.buildFQDN st subdomain with ⟨st2, n, r⟩
    cases r with
    | error e =>
      simp [CloudflareProvider.CreateRecords, hb] at h
    | ok fqdn =>
      have hcr : cp.CreateRecords st subdomain ips =
          (st2, (cp.createLoop fqdn ips).1, (cp.createLoop fqdn ips).2) := by
        simp [CloudflareProvider.CreateRecords, hb]
      rw [hcr] at h ⊢
      simp only at h ⊢
      rw [cf_createLoop_ok cp fqdn ips h]
      constructor
      · rw [List.map_map]
        exact List.map_congr_left (fun ip _ => typeVal_code_eq_claim fqdn ip)
      · simp

/-- Witness for the CreateRecords theorem with an all-success API and a
mixed-family list. -/
theorem CreateRecords_one_request_per_address_witness :
    (vpOK.CreateRecords ("cf") ipsMixed).1.map CreateReq.typeVal =
      ipsMixed.map addrTypeVal ∧
    (vpOK.CreateRecords ("cf") ipsMixed).1.length = ipsMixed.length :=
  (CreateRecords_one_request_per_address vpOK cpOK ⟨("")⟩ ("cf") ipsMixed).1 (by decide)

/-- C5: on the same subdomain and address list, when both providers'
CreateRecords return without error they issue the same number of creation
requests, with the same types assigned to the same addresses in the same
order. -/
theorem providers_create_equivalent
    (vp : VercelProvider) (cp : CloudflareProvider) (st : CFState)
    (subdomain : String) (ips : List Addr)
    (hv : (vp.CreateRecords subdomain ips).2 = none)
    (hc : (cp.CreateRecords st subdomain ips).2.2 = none) :
    (vp.CreateRecords subdomain ips).1.length =
      (cp.CreateRecords st subdomain ips).2.1.length ∧
    (vp.CreateRecords subdomain ips).1.map CreateReq.typeVal =
      (cp.CreateRecords st subdomain ips).2.1.map CreateReq.typeVal := by
  rcases hb : cp.buildFQDN st subdomain with ⟨st2, n, r⟩
  cases r with
  | error e =>
    simp [CloudflareProvider.CreateRecords, hb] at hc
  | ok fqdn =>
    have hcr : cp.CreateRecords st subdomain ips =
        (st2, (cp.createLoop fqdn ips).1, (cp.createLoop fqdn ips).2) := by
      simp [CloudflareProvider.CreateRecords, hb]
    rw [hcr] at hc ⊢
    simp only at hc ⊢
    rw [vercel_CreateRecords_ok vp subdomain ips hv, cf_createLoop_ok cp fqdn ips hc]
    constructor
    · simp
    · rw [List.map_map, List.map_map]
      refine List.map_congr_left (fun ip _ => ?_)
      cases ip <;> rfl

/-- Witness for the provider-equivalence theorem with all-success APIs. -/
theorem providers_create_equivalent_witness :
    (vpOK.CreateRecords ("cf") ipsMixed).1.length =
      (cpOK.CreateRecords ⟨("")⟩ ("cf") ipsMixed).2.1.length ∧
    (vpOK.CreateRecords ("cf") ipsMixed).1.map CreateReq.typeVal =
      (cpOK.CreateRecords ⟨("")⟩ ("cf") ipsMixed).2.1.map CreateReq.typeVal :=
  providers_create_equivalent vpOK cpOK ⟨("")⟩ ("cf") ipsMixed (by decide) (by decide)

/-- When the Vercel deletion loop returns without error it has issued one
deletion request for exactly the records whose type and name match. -/
lemma vercel_deleteLoop_ok (p : VercelProvider) (recordType subdomain : String) :
    ∀ recs : List VercelRecord,
      (p.deleteLoop recordType subdomain recs).2 = none →
      (p.deleteLoop recordType subdomain recs).1 =
        (recs.filter (fun r =>
          decide (r.rtype = recordType ∧ r.name = subdomain))).map VercelRecord.id := by
  intro recs
  induction recs with
  | nil => intro _; rfl
  | cons r rest ih =>
    intro h
    by_cases hm : r.rtype = recordType ∧ r.name = subdomain
    · cases hd : p.deleteResult r.id with
      | some e =>
        simp [VercelProvider.deleteLoop, hm, hd] at h
      | none =>
        have h2 : (p.deleteLoop recordType subdomain rest).2 = none := by
          simp only [VercelProvider.deleteLoop, if_pos hm, hd] at h
          exact h
        simp only [VercelProvider.deleteLoop, if_pos hm, hd]
        simp [List.filter_cons, hm, ih h2]
    · have h2 : (p.deleteLoop recordType subdomain rest).2 = none := by
        simp only [VercelProvider.deleteLoop, if_neg hm] at h
        exact h
      simp only [VercelProvider.deleteLoop, if_neg hm]
      simp [List.filter_cons, hm, ih h2]

/-- When the Cloudflare deletion loop returns without error it has issued one
deletion request for every listed record. -/
lemma cf_deleteLoop_ok (p : CloudflareProvider) :
    ∀ recs : List CFRecord,
      (p.deleteLoop recs).2 = none →
      (p.deleteLoop recs).1 = recs.map CFRecord.id := by
  intro recs
  induction recs with
  | nil => intro _; rfl
  | cons r rest ih =>
    intro h
    cases hd : p.deleteResult r.id with
    | some e =>
      simp [CloudflareProvider.deleteLoop, hd] at h
    | none =>
      simp only [CloudflareProvider.deleteLoop, hd] at h ⊢
      simp only [List.map_cons, List.cons.injEq, true_and]
      exact ih h

/-- C3: each provider's DeleteRecords, when it returns without error, has
issued a deletion request for every existing record of the matching type for
the target name as returned by the provider's record-listing call (the
Cloudflare listing is already filtered by name and type server-side; the
Vercel listing is filtered client-side). -/
theorem DeleteRecords_deletes_all_matching
    (vp : VercelProvider) (cp : CloudflareProvider) (st : CFState)
    (subdomain : String) (ipv6 : Bool) :
    ((vp.DeleteRecords subdomain ipv6).2 = none →
      ∃ recs, vp.listResult = .ok recs ∧
        (vp.DeleteRecords subdomain ipv6).1 =
          (recs.filter (fun r =>
            decide (r.rtype = (if ipv6 then ("AAAA") else ("A")) ∧
              r.name = subdomain))).map VercelRecord.id) ∧
    ((cp.DeleteRecords st subdomain ipv6).2.2 = none →
      ∃ fqdn recs, (cp.buildFQDN st subdomain).2.2 = .ok fqdn ∧
        cp.listResult fqdn (if ipv6 then ("AAAA") else ("A")) = .ok recs ∧
        (cp.DeleteRecords st subdomain ipv6).2.1 = recs.map CFRecord.id) := by
  constructor
  · intro h
    cases hl : vp.listResult with
    | error e =>
      simp [VercelProvider.DeleteRecords, hl] at h
    | ok recs =>
      refine ⟨recs, rfl, ?_⟩
      have hd : vp.DeleteRecords subdomain ipv6 =
          vp.deleteLoop (if ipv6 then ("AAAA") else ("A")) subdomain recs := by
        simp [VercelProvider.DeleteRecords, hl]
      rw [hd] at h ⊢
      exact vercel_deleteLoop_ok vp _ subdomain recs h
  · intro h
    rcases hb : cp.buildFQDN st subdomain with ⟨st2, n, r⟩
    cases r with
    | error e =>
      simp [CloudflareProvider.DeleteRecords, hb] at h
    | ok fqdn =>
      cases hl : cp.listResult fqdn (if ipv6 then ("AAAA") else ("A")) with
      | error e =>
        simp [CloudflareProvider.DeleteRecords, hb, hl] at h
      | ok recs =>
        refine ⟨fqdn, recs, by simp [hb], hl, ?_⟩
        have hd : cp.DeleteRecords st subdomain ipv6 =
            (st2, (cp.deleteLoop recs).1, (cp.deleteLoop recs).2) := by
          simp [CloudflareProvider.DeleteRecords, hb, hl]
        rw [hd] at h ⊢
        exact cf_deleteLoop_ok cp recs h

/-- Witness for the DeleteRecords theorem: three existing Vercel records, two
of which match subdomain cf with type A. -/
theorem DeleteRecords_deletes_all_matching_witness :
    ∃ recs, vpRecs.listResult = .ok recs ∧
      (vpRecs.DeleteRecords ("cf") false).1 =
        (recs.filter (fun r =>
          decide (r.rtype = (if false then ("AAAA") else ("A")) ∧
            r.name = ("cf")))).map VercelRecord.id :=
  (DeleteRecords_deletes_all_matching vpRecs cpOK ⟨("")⟩ ("cf") false).1 (by decide)

/-- C9 counterexample: when the zone fetch succeeds with an empty zone name,
the first successful getZoneName call does not effectively cache it, and the
next call issues another network request (request count 1, not 0). -/
theorem getZoneName_caching_cex :
    (cpEmptyZone.getZoneName ⟨("")⟩).2.2 = .ok ("") ∧
    (cpEmptyZone.getZoneName ((cpEmptyZone.getZoneName ⟨("")⟩).1)).2.1 = 1 := by
  constructor
  · rfl
  · rfl

/-- C9 (amended): getZoneName returns a cached non-empty zone name without a
network request; when the cache is empty and the fetch succeeds with a
non-empty name, that name is cached and the next call returns it with no
request; and whenever getZoneName succeeds, buildFQDN maps the empty
subdomain and the at sign to the zone apex and any other subdomain to
subdomain dot zoneName. -/
theorem getZoneName_caching
    (cp : CloudflareProvider) (st : CFState) :
    (st.zoneName ≠ ("") → cp.getZoneName st = (st, 0, .ok st.zoneName)) ∧
    (∀ zn, st.zoneName = ("") → cp.zoneFetch = .ok zn → zn ≠ ("") →
      cp.getZoneName st = (⟨zn⟩, 1, .ok zn) ∧
      cp.getZoneName ⟨zn⟩ = (⟨zn⟩, 0, .ok zn)) ∧
    (∀ subdomain zn, (cp.getZoneName st).2.2 = .ok zn →
      (cp.buildFQDN st subdomain).2.2 =
        .ok (if subdomain = ("") ∨ subdomain = ("@") then zn
             else subdomain ++ (".") ++ zn)) := by
  refine ⟨?_, ?_, ?_⟩
  · intro h
    simp [CloudflareProvider.getZoneName, h]
  · intro zn hst hf hzn
    constructor
    · simp [CloudflareProvider.getZoneName, hst, hf]
    · simp [CloudflareProvider.getZoneName, hzn]
  · intro subdomain zn h
    rcases hg : cp.getZoneName st with ⟨st2, n, r⟩
    rw [hg] at h
    simp only at h
    subst h
    by_cases hs : subdomain = ("") ∨ subdomain = ("@")
    · simp [CloudflareProvider.buildFQDN, hg, hs]
    · simp [CloudflareProvider.buildFQDN, hg, hs]

/-- Witness for the caching theorem: an uncached state and a successful fetch
of a non-empty zone name. -/
theorem getZoneName_caching_witness :
    cpOK.getZoneName ⟨("")⟩ = (⟨("example.com")⟩, 1, .ok ("example.com")) ∧
    cpOK.getZoneName ⟨("example.com")⟩ = (⟨("example.com")⟩, 0, .ok ("example.com")) :=
  (getZoneName_caching cpOK ⟨("")⟩).2.1 ("example.com") rfl rfl (by decide)

/-- A non-empty list has isEmpty false. -/
lemma isEmpty_false_of_ne_nil {α : Type} {l : List α} (h : l ≠ []) :
    l.isEmpty = false := by
  cases l
  · exact absurd rfl h
  · rfl

/-- A non-empty address list with no IPv4 part has a non-empty IPv6 part. -/
lemma v6part_ne_nil_of_v4part_nil (ips : List Addr) (hne : ips ≠ [])
    (h4 : v4part ips = []) : v6part ips ≠ [] := by
  cases ips with
  | nil => exact absurd rfl hne
  | cons a rest =>
    cases a with
    | v4 s =>
      exfalso
      have hmem : Addr.v4 s ∈ v4part (Addr.v4 s :: rest) := by
        simp [v4part, List.mem_filter, Addr.is4]
      rw [h4] at hmem
      simp at hmem
    | v6 s =>
      have hmem : Addr.v6 s ∈ v6part (Addr.v6 s :: rest) := by
        simp [v6part, List.mem_filter, Addr.is4]
      exact List.ne_nil_of_mem hmem

/-- The two partitions of an address list are different lists whenever the
IPv6 partition is non-empty (the partitions can only coincide when both are
empty). -/
lemma v6part_ne_v4part (ips : List Addr) (h : v6part ips ≠ []) :
    ¬ (v6part ips = v4part ips) := by
  intro heq
  obtain ⟨a, ha⟩ := List.exists_mem_of_ne_nil _ h
  have h6 : a.is4 = false := by
    have := (List.mem_filter.1 ha).2
    simpa using this
  have h4 : a.is4 = true := by
    have := (List.mem_filter.1 (heq ▸ ha)).2
    simpa using this
  rw [h6] at h4
  exact Bool.false_ne_true h4

/-- Exhaustive description of one run of `Upload` on a non-empty list: the
partition emptiness, the provider-call outcomes, and the resulting trace and
error, one disjunct per control path. -/
lemma Upload_shape (prov : ProviderBehavior) (subdomain : String) (ips : List Addr)
    (hne : ips ≠ []) :
    (v4part ips = [] ∧ v6part ips ≠ [] ∧
      ((∃ e, prov.DeleteRecords subdomain true = some e ∧
        Upload prov subdomain ips =
          ([DNSCall.deleteRecords subdomain true],
           some (("delete AAAA records: ") ++ e))) ∨
       (prov.DeleteRecords subdomain true = none ∧ ∃ e,
        prov.CreateRecords subdomain (v6part ips) = some e ∧
        Upload prov subdomain ips =
          ([DNSCall.deleteRecords subdomain true,
            DNSCall.createRecords subdomain (v6part ips)],
           some (("create AAAA records: ") ++ e))) ∨
       (prov.DeleteRecords subdomain true = none ∧
        prov.CreateRecords subdomain (v6part ips) = none ∧
        Upload prov subdomain ips =
          ([DNSCall.deleteRecords subdomain true,
            DNSCall.createRecords subdomain (v6part ips)], none)))) ∨
    (v4part ips ≠ [] ∧
      ((∃ e, prov.DeleteRecords subdomain false = some e ∧
        Upload prov subdomain ips =
          ([DNSCall.deleteRecords subdomain false],
           some (("delete A records: ") ++ e))) ∨
       (prov.DeleteRecords subdomain false = none ∧ ∃ e,
        prov.CreateRecords subdomain (v4part ips) = some e ∧
        Upload prov subdomain ips =
          ([DNSCall.deleteRecords subdomain false,
            DNSCall.createRecords subdomain (v4part ips)],
           some (("create A records: ") ++ e))) ∨
       (prov.DeleteRecords subdomain false = none ∧
        prov.CreateRecords subdomain (v4part ips) = none ∧
        v6part ips = [] ∧
        Upload prov subdomain ips =
          ([DNSCall.deleteRecords subdomain false,
            DNSCall.createRecords subdomain (v4part ips)], none)) ∨
       (prov.DeleteRecords subdomain false = none ∧
        prov.CreateRecords subdomain (v4part ips) = none ∧
        v6part ips ≠ [] ∧
        ((∃ e, prov.DeleteRecords subdomain true = some e ∧
          Upload prov subdomain ips =
            ([DNSCall.deleteRecords subdomain false,
              DNSCall.createRecords subdomain (v4part ips),
              DNSCall.deleteRecords subdomain true],
             some (("delete AAAA records: ") ++ e))) ∨
         (prov.DeleteRecords subdomain true = none ∧ ∃ e,
          prov.CreateRecords subdomain (v6part ips) = some e ∧
          Upload prov subdomain ips =
            ([DNSCall.deleteRecords subdomain false,
              DNSCall.createRecords subdomain (v4part ips),
              DNSCall.deleteRecords subdomain true,
              DNSCall.createRecords subdomain (v6part ips)],
             some (("create AAAA records: ") ++ e))) ∨
         (prov.DeleteRecords subdomain true = none ∧
          prov.CreateRecords subdomain (v6part ips) = none ∧
          Upload prov subdomain ips =
            ([DNSCall.deleteRecords subdomain false,
              DNSCall.createRecords subdomain (v4part ips),
              DNSCall.deleteRecords subdomain true,
              DNSCall.createRecords subdomain (v6part ips)], none)))))) := by
  have hne' : ips.isEmpty = false := isEmpty_false_of_ne_nil hne
  by_cases hv4 : v4part ips = []
  · have hv6 : v6part ips ≠ [] := v6part_ne_nil_of_v4part_nil ips hne hv4
    have hv6e : (ips.filter (fun ip => !ip.is4)).isEmpty = false :=
      isEmpty_false_of_ne_nil (by simpa [v6part] using hv6)
    have hv4e : (ips.filter (fun ip => ip.is4)).isEmpty = true := by
      simp only [v4part] at hv4
      simp [hv4]
    refine Or.inl ⟨hv4, hv6, ?_⟩
    cases hd6 : prov.DeleteRecords subdomain true with
    | some e =>
      refine Or.inl ⟨e, rfl, ?_⟩
      simp [Upload, hne', hv4e, hv6e, hd6]
    | none =>
      cases hc6 : prov.CreateRecords subdomain (v6part ips) with
      | some e =>
        refine Or.inr (Or.inl ⟨rfl, e, rfl, ?_⟩)
        simp only [v6part] at hc6
        simp [Upload, hne', hv4e, hv6e, hd6, hc6, v6part]
      | none =>
        refine Or.inr (Or.inr ⟨rfl, rfl, ?_⟩)
        simp only [v6part] at hc6
        simp [Upload, hne', hv4e, hv6e, hd6, hc6, v6part]
  · have hv4e : (ips.filter (fun ip => ip.is4)).isEmpty = false :=
      isEmpty_false_of_ne_nil (by simpa [v4part] using hv4)
    refine Or.inr ⟨hv4, ?_⟩
    cases hd4 : prov.DeleteRecords subdomain false with
    | some e =>
      refine Or.inl ⟨e, rfl, ?_⟩
      simp [Upload, hne', hv4e, hd4]
    | none =>
      cases hc4 : prov.CreateRecords subdomain (v4part ips) with
      | some e =>
        refine Or.inr (Or.inl ⟨rfl, e, rfl, ?_⟩)
        simp only [v4part] at hc4
        simp [Upload, hne', hv4e, hd4, hc4, v4part]
      | none =>
        by_cases hv6 : v6part ips = []
        · refine Or.inr (Or.inr (Or.inl ⟨rfl, rfl, hv6, ?_⟩))
          have hv6e : (ips.filter (fun ip => !ip.is4)).isEmpty = true := by
            simp only [v6part] at hv6
            simp [hv6]
          simp only [v4part] at hc4
          simp [Upload, hne', hv4e, hd4, hc4, hv6e, v4part]
        · have hv6e : (ips.filter (fun ip => !ip.is4)).isEmpty = false :=
            isEmpty_false_of_ne_nil (by simpa [v6part] using hv6)
          refine Or.inr (Or.inr (Or.inr ⟨rfl, rfl, hv6, ?_⟩))
          cases hd6 : prov.DeleteRecords subdomain true with
          | some e =>
            refine Or.inl ⟨e, rfl, ?_⟩
            simp only [v4part] at hc4
            simp [Upload, hne', hv4e, hd4, hc4, hv6e, hd6, v4part]
          | none =>
            cases hc6 : prov.CreateRecords subdomain (v6part ips) with
            | some e =>
              refine Or.inr (Or.inl ⟨rfl, e, rfl, ?_⟩)
              simp only [v4part] at hc4
              simp only [v6part] at hc6
              simp [Upload, hne', hv4e, hd4, hc4, hv6e, hd6, hc6, v4part, v6part]
            | none =>
              refine Or.inr (Or.inr ⟨rfl, rfl, ?_⟩)
              simp only [v4part] at hc4
              simp only [v6part] at hc6
              simp [Upload, hne', hv4e, hd4, hc4, hv6e, hd6, hc6, v4part, v6part]

/-- C1 counterexample: on a list containing both families, when the A-family
deletion fails Upload returns immediately, so DeleteRecords is never called
for the IPv6 family even though IPv6 addresses are present. -/
theorem Upload_delete_before_create_cex :
    v6part ipsMixed ≠ [] ∧
    DNSCall.deleteRecords ("cf") true ∉ (Upload provDelFail ("cf") ipsMixed).1 := by
  decide

/-- C1 (amended): on a non-empty list, Upload calls DeleteRecords for the
IPv4 family whenever IPv4 addresses are present; it calls DeleteRecords for
the IPv6 family whenever IPv6 addresses are present, provided the IPv4 stage
(when there is one) completed without error; and CreateRecords for a family
appears in the trace only when DeleteRecords for that family succeeded, at an
earlier position. -/
theorem Upload_delete_before_create
    (prov : ProviderBehavior) (subdomain : String) (ips : List Addr)
    (hne : ips ≠ []) :
    (v4part ips ≠ [] →
      DNSCall.deleteRecords subdomain false ∈ (Upload prov subdomain ips).1) ∧
    (v6part ips ≠ [] →
      (v4part ips ≠ [] → prov.DeleteRecords subdomain false = none ∧
        prov.CreateRecords subdomain (v4part ips) = none) →
      DNSCall.deleteRecords subdomain true ∈ (Upload prov subdomain ips).1) ∧
    (v4part ips ≠ [] →
      DNSCall.createRecords subdomain (v4part ips) ∈ (Upload prov subdomain ips).1 →
      prov.DeleteRecords subdomain false = none ∧
      ∃ i j : Nat, i < j ∧
        (Upload prov subdomain ips).1[i]? = some (DNSCall.deleteRecords subdomain false) ∧
        (Upload prov subdomain ips).1[j]? =
          some (DNSCall.createRecords subdomain (v4part ips))) ∧
    (v6part ips ≠ [] →
      DNSCall.createRecords subdomain (v6part ips) ∈ (Upload prov subdomain ips).1 →
      prov.DeleteRecords subdomain true = none ∧
      ∃ i j : Nat, i < j ∧
        (Upload prov subdomain ips).1[i]? = some (DNSCall.deleteRecords subdomain true) ∧
        (Upload prov subdomain ips).1[j]? =
          some (DNSCall.createRecords subdomain (v6part ips))) := by
  rcases Upload_shape prov subdomain ips hne with
    ⟨hv4, hv6, hA⟩ | ⟨hv4, hB⟩
  · rcases hA with ⟨e, hd6, hup⟩ | ⟨hd6, e, hc6, hup⟩ | ⟨hd6, hc6, hup⟩
    · rw [hup]
      refine ⟨fun h => absurd hv4 h, fun _ _ => by simp, fun h => absurd hv4 h, ?_⟩
      intro h6 hmem
      exfalso
      simp at hmem
    · rw [hup]
      refine ⟨fun h => absurd hv4 h, fun _ _ => by simp, fun h => absurd hv4 h, ?_⟩
      intro _ _
      exact ⟨hd6, 0, 1, by norm_num, rfl, rfl⟩
    · rw [hup]
      refine ⟨fun h => absurd hv4 h, fun _ _ => by simp, fun h => absurd hv4 h, ?_⟩
      intro _ _
      exact ⟨hd6, 0, 1, by norm_num, rfl, rfl⟩
  · rcases hB with ⟨e, hd4, hup⟩ | ⟨hd4, e, hc4, hup⟩ |
      ⟨hd4, hc4, hv6, hup⟩ | ⟨hd4, hc4, hv6, hB2⟩
    · rw [hup]
      refine ⟨fun _ => by simp, ?_, ?_, ?_⟩
      · intro h6 himp
        have hdel := (himp hv4).1
        rw [hd4] at hdel
        exact Option.noConfusion hdel
      · intro _ hmem
        exfalso
        simp at hmem
      · intro h6 hmem
        exfalso
        simp at hmem
    · rw [hup]
      refine ⟨fun _ => by simp, ?_, ?_, ?_⟩
      · intro h6 himp
        have hcre := (himp hv4).2
        rw [hc4] at hcre
        exact Option.noConfusion hcre
      · intro _ _
        exact ⟨hd4, 0, 1, by norm_num, rfl, rfl⟩
      · intro h6 hmem
        simp at hmem
        exact absurd hmem (v6part_ne_v4part ips h6)
    · rw [hup]
      refine ⟨fun _ => by simp, fun h6 _ => absurd hv6 h6, ?_, fun h6 _ => absurd hv6 h6⟩
      intro _ _
      exact ⟨hd4, 0, 1, by norm_num, rfl, rfl⟩
    · rcases hB2 with ⟨e, hd6, hup⟩ | ⟨hd6, e, hc6, hup⟩ | ⟨hd6, hc6, hup⟩
      · rw [hup]
        refine ⟨fun _ => by simp, fun _ _ => by simp, ?_, ?_⟩
        · intro _ _
          exact ⟨hd4, 0, 1, by norm_num, rfl, rfl⟩
        · intro h6 hmem
          simp at hmem
          exact absurd hmem (v6part_ne_v4part ips h6)
      · rw [hup]
        refine ⟨fun _ => by simp, fun _ _ => by simp, ?_, ?_⟩
        · intro _ _
          exact ⟨hd4, 0, 1, by norm_num, rfl, rfl⟩
        · intro _ _
          exact ⟨hd6, 2, 3, by norm_num, rfl, rfl⟩
      · rw [hup]
        refine ⟨fun _ => by simp, fun _ _ => by simp, ?_, ?_⟩
        · intro _ _
          exact ⟨hd4, 0, 1, by norm_num, rfl, rfl⟩
        · intro _ _
          exact ⟨hd6, 2, 3, by norm_num, rfl, rfl⟩

/-- Witness for the amended ordering theorem: with an all-success provider
and a mixed-family list both families' deletions appear in the trace. -/
theorem Upload_delete_before_create_witness :
    DNSCall.deleteRecords ("cf") false ∈ (Upload provAllOK ("cf") ipsMixed).1 ∧
    DNSCall.deleteRecords ("cf") true ∈ (Upload provAllOK ("cf") ipsMixed).1 :=
  ⟨(Upload_delete_before_create provAllOK ("cf") ipsMixed (by decide)).1 (by decide),
   (Upload_delete_before_create provAllOK ("cf") ipsMixed (by decide)).2.1 (by decide)
     (fun _ => ⟨rfl, rfl⟩)⟩

/-- C4: every provider API failure during Upload forces a non-nil error:
whenever a provider call that Upload performed fails, Upload returns an error
that wraps the provider error, and the failing call is the last record
operation of the run (no further provider call follows it, and every earlier
call succeeded). -/
theorem Upload_error_stops_and_wraps
    (prov : ProviderBehavior) (subdomain : String) (ips : List Addr)
    (c : DNSCall) (ce : String)
    (hmem : c ∈ (Upload prov subdomain ips).1)
    (hfail : prov.callResult c = some ce) :
    (∃ p, (Upload prov subdomain ips).2 = some (p ++ ce)) ∧
    (∃ t1, (Upload prov subdomain ips).1 = t1 ++ [c] ∧
      ∀ c2 ∈ t1, prov.callResult c2 = none) := by
  have hne : ips ≠ [] := by
    intro h0
    rw [h0] at hmem
    simp [Upload] at hmem
  rcases Upload_shape prov subdomain ips hne with
    ⟨hv4, hv6, hA⟩ | ⟨hv4, hB⟩
  · rcases hA with ⟨e0, hd6, hup⟩ | ⟨hd6, e0, hc6, hup⟩ | ⟨hd6, hc6, hup⟩
    · rw [hup] at hmem ⊢
      simp at hmem
      subst hmem
      simp only [ProviderBehavior.callResult] at hfail
      rw [hd6] at hfail
      obtain rfl := Option.some.inj hfail
      exact ⟨⟨("delete AAAA records: "), rfl⟩, [], by simp, by simp⟩
    · rw [hup] at hmem ⊢
      simp at hmem
      rcases hmem with rfl | rfl
      · simp only [ProviderBehavior.callResult] at hfail
        rw [hd6] at hfail
        exact Option.noConfusion hfail
      · simp only [ProviderBehavior.callResult] at hfail
        rw [hc6] at hfail
        obtain rfl := Option.some.inj hfail
        refine ⟨⟨("create AAAA records: "), rfl⟩,
          [DNSCall.deleteRecords subdomain true], by simp, ?_⟩
        intro c2 hc2
        simp at hc2
        subst hc2
        simp [ProviderBehavior.callResult, hd6]
    · rw [hup] at hmem
      simp at hmem
      rcases hmem with rfl | rfl
      · simp only [ProviderBehavior.callResult] at hfail
        rw [hd6] at hfail
        exact Option.noConfusion hfail
      · simp only [ProviderBehavior.callResult] at hfail
        rw [hc6] at hfail
        exact Option.noConfusion hfail
  · rcases hB with ⟨e0, hd4, hup⟩ | ⟨hd4, e0, hc4, hup⟩ |
      ⟨hd4, hc4, hv6, hup⟩ | ⟨hd4, hc4, hv6, hB2⟩
    · rw [hup] at hmem ⊢
      simp at hmem
      subst hmem
      simp only [ProviderBehavior.callResult] at hfail
      rw [hd4] at hfail
      obtain rfl := Option.some.inj hfail
      exact ⟨⟨("delete A records: "), rfl⟩, [], by simp, by simp⟩
    · rw [hup] at hmem ⊢
      simp at hmem
      rcases hmem with rfl | rfl
      · simp only [ProviderBehavior.callResult] at hfail
        rw [hd4] at hfail
        exact Option.noConfusion hfail
      · simp only [ProviderBehavior.callResult] at hfail
        rw [hc4] at hfail
        obtain rfl := Option.some.inj hfail
        refine ⟨⟨("create A records: "), rfl⟩,
          [DNSCall.deleteRecords subdomain false], by simp, ?_⟩
        intro c2 hc2
        simp at hc2
        subst hc2
        simp [ProviderBehavior.callResult, hd4]
    · rw [hup] at hmem
      simp at hmem
      rcases hmem with rfl | rfl
      · simp only [ProviderBehavior.callResult] at hfail
        rw [hd4] at hfail
        exact Option.noConfusion hfail
      · simp only [ProviderBehavior.callResult] at hfail
        rw [hc4] at hfail
        exact Option.noConfusion hfail
    · rcases hB2 with ⟨e0, hd6, hup⟩ | ⟨hd6, e0, hc6, hup⟩ | ⟨hd6, hc6, hup⟩
      · rw [hup] at hmem ⊢
        simp at hmem
        rcases hmem with rfl | rfl | rfl
        · simp only [ProviderBehavior.callResult] at hfail
          rw [hd4] at hfail
          exact Option.noConfusion hfail
        · simp only [ProviderBehavior.callResult] at hfail
          rw [hc4] at hfail
          exact Option.noConfusion hfail
        · simp only [ProviderBehavior.callResult] at hfail
          rw [hd6] at hfail
          obtain rfl := Option.some.inj hfail
          refine ⟨⟨("delete AAAA records: "), rfl⟩,
            [DNSCall.deleteRecords subdomain false,
             DNSCall.createRecords subdomain (v4part ips)], by simp, ?_⟩
          intro c2 hc2
          simp at hc2
          rcases hc2 with rfl | rfl
          · simp [ProviderBehavior.callResult, hd4]
          · simp [ProviderBehavior.callResult, hc4]
      · rw [hup] at hmem ⊢
        simp at hmem
        rcases hmem with rfl | rfl | rfl | rfl
        · simp only [ProviderBehavior.callResult] at hfail
          rw [hd4] at hfail
          exact Option.noConfusion hfail
        · simp only [ProviderBehavior.callResult] at hfail
          rw [hc4] at hfail
          exact Option.noConfusion hfail
        · simp only [ProviderBehavior.callResult] at hfail
          rw [hd6] at hfail
          exact Option.noConfusion hfail
        · simp only [ProviderBehavior.callResult] at hfail
          rw [hc6] at hfail
          obtain rfl := Option.some.inj hfail
          refine ⟨⟨("create AAAA records: "), rfl⟩,
            [DNSCall.deleteRecords subdomain false,
             DNSCall.createRecords subdomain (v4part ips),
             DNSCall.deleteRecords subdomain true], by simp, ?_⟩
          intro c2 hc2
          simp at hc2
          rcases hc2 with rfl | rfl | rfl
          · simp [ProviderBehavior.callResult, hd4]
          · simp [ProviderBehavior.callResult, hc4]
          · simp [ProviderBehavior.callResult, hd6]
      · rw [hup] at hmem
        simp at hmem
        rcases hmem with rfl | rfl | rfl | rfl
        · simp only [ProviderBehavior.callResult] at hfail
          rw [hd4] at hfail
          exact Option.noConfusion hfail
        · simp only [ProviderBehavior.callResult] at hfail
          rw [hc4] at hfail
          exact Option.noConfusion hfail
        · simp only [ProviderBehavior.callResult] at hfail
          rw [hd6] at hfail
          exact Option.noConfusion hfail
        · simp only [ProviderBehavior.callResult] at hfail
          rw [hc6] at hfail
          exact Option.noConfusion hfail

/-- Witness for the error-propagation theorem: the failing A-family deletion
on a mixed-family list forces a wrapped non-nil error and ends the run. -/
theorem Upload_error_stops_and_wraps_witness :
    (∃ p, (Upload provDelFail ("cf") ipsMixed).2 = some (p ++ ("boom"))) ∧
    (∃ t1, (Upload provDelFail ("cf") ipsMixed).1 =
        t1 ++ [DNSCall.deleteRecords ("cf") false] ∧
      ∀ c2 ∈ t1, provDelFail.callResult c2 = none) :=
  Upload_error_stops_and_wraps provDelFail ("cf") ipsMixed
    (DNSCall.deleteRecords ("cf") false) ("boom") (by decide) (by decide)
